import Mathlib

/-!
Verification of the folding validator core (src/folding) against its
specification.  The Python sources are shallowly embedded below:

* `src/folding/utils/ops.py`      : `gro_hash`, `run_cmd_commands`
* `src/folding/validators/reward.py` : `get_energies`
* `src/folding/validators/forward.py`: the hyperparameter-attempt loop of
  `forward` and the structure-id selection.
-/

namespace Folding

/-! ### Character classes of the Python regular expression
`re.compile(r"\s*(\d+\w+)\s+(\w+\d*\s*\d+)\s+(\-?\d+\.\d+)+")` used by
`gro_hash` (ops.py line 86). -/

/-- Python regex class d restricted to the ASCII digits that occur in the
byte-decoded lines of a gro file. -/
def isDigitC (c : Char) : Bool := c.isDigit

/-- Python regex class w : alphanumeric or underscore. -/
def isWordC (c : Char) : Bool := c.isAlphanum || c = '_'

/-- Python regex class s (whitespace). -/
def isSpaceC (c : Char) : Bool :=
  c = ' ' || c = '\t' || c = '\n' || c = '\r' || c = '\x0b' || c = '\x0c'

/-- Splits a list into its maximal leading run of characters satisfying `p`
and the remainder. -/
def takeClass (p : Char → Bool) : List Char → List Char × List Char
  | [] => ([], [])
  | c :: cs =>
    if p c then
      let r := takeClass p cs
      (c :: r.1, r.2)
    else ([], c :: cs)

/-- All ways a greedy quantifier over the class `p` can split `s`, longest
consumed prefix first, consuming at least `m` characters (`m = 0` embeds a
Kleene star, `m = 1` embeds a plus).  This is exactly the order in which a
backtracking regex engine tries the alternatives. -/
def classSplits (p : Char → Bool) (m : Nat) (s : List Char) : List (List Char × List Char) :=
  let r := takeClass p s
  (((List.range (r.1.length + 1)).filter (fun k => decide (m ≤ k))).reverse).map
    (fun k => (r.1.take k, r.1.drop k ++ r.2))

/-- First success of `f` over `l`, in order: the backtracking search
combinator. -/
def firstSome {α β : Type} (l : List α) (f : α → Option β) : Option β :=
  match l with
  | [] => none
  | a :: rest =>
    match f a with
    | some b => some b
    | none => firstSome rest f

/-- Matches the tail `\s+(-?\d+\.\d+)` of the gro-line pattern as a prefix of
`s` (the trailing `(...)+` repetition and any remaining characters of the
line are irrelevant to `re.match` success and to the captured groups). -/
def floatTail (s : List Char) : Bool :=
  match s with
  | [] => false
  | c :: cs =>
    if isSpaceC c then
      let s1 := (takeClass isSpaceC cs).2
      let s2 := match s1 with
        | d :: ds => if d = '-' then ds else s1
        | [] => s1
      let r := takeClass isDigitC s2
      if r.1.isEmpty then false
      else
        match r.2 with
        | p :: ps => p = '.' && !(takeClass isDigitC ps).1.isEmpty
        | [] => false
    else false

/-- Backtracking match of group 2, `(\w+\d*\s*\d+)`, followed by `floatTail`,
at the start of `s`.  Returns the characters consumed by group 2 (a
contiguous span, reassembled from its four parts).  The nested `firstSome`
over `classSplits` reproduces the greedy, leftmost backtracking order of the
Python engine. -/
def g2Match (s : List Char) : Option (List Char) :=
  firstSome (classSplits isWordC 1 s) (fun pw =>
    firstSome (classSplits isDigitC 0 pw.2) (fun pd1 =>
      firstSome (classSplits isSpaceC 0 pd1.2) (fun ps =>
        firstSome (classSplits isDigitC 1 ps.2) (fun pd2 =>
          if floatTail pd2.2 then some (pw.1 ++ pd1.1 ++ ps.1 ++ pd2.1) else none))))

/-- `pattern.match(line)` of ops.py, returning the captured
`(group(1), group(2))` on success.  The leading `\s*` and the group-1 part
`(\d+\w+)\s+` are deterministic (the classes on each side of every
quantifier are disjoint), so group 1 is the maximal word-character run after
the leading whitespace; it matches iff it starts with a digit, has at least
two characters, and is followed by whitespace. -/
def groMatch (line : List Char) : Option (List Char × List Char) :=
  let s0 := (takeClass isSpaceC line).2
  let pr := takeClass isWordC s0
  match pr.1 with
  | [] => none
  | c :: restTok =>
    if isDigitC c && !restTok.isEmpty then
      match pr.2 with
      | s :: _ =>
        if isSpaceC s then
          match g2Match ((takeClass isSpaceC pr.2).2) with
          | some g2 => some (c :: restTok, g2)
          | none => none
        else none
      | [] => none
    else none

/-- `str.strip()`: removes leading and trailing whitespace. -/
def stripChars (s : List Char) : List Char :=
  (((takeClass isSpaceC s).2.reverse |> takeClass isSpaceC).2).reverse

/-- Value of a digit string (Python `int` on the underscore-filtered
digits). -/
def digitsVal (l : List Char) : Nat :=
  l.foldl (fun a c => a * 10 + (c.toNat - 48)) 0

/-- Digits possibly separated by single underscores, as accepted after the
first digit by Python `int`. -/
def intLitRest : List Char → Bool
  | [] => true
  | c :: cs =>
    if isDigitC c then intLitRest cs
    else if c = '_' then
      match cs with
      | d :: ds => isDigitC d && intLitRest ds
      | [] => false
    else false

/-- Python `int(...)` applied to a line (ops.py line 90, `int(length)`):
strips whitespace, accepts an optional sign and a nonempty digit sequence
with optional single underscore separators; anything else raises
`ValueError`, embedded as `none`. -/
def parseInt (s : String) : Option Int :=
  let t := stripChars s.data
  let u := match t with
    | c :: cs => if c = '-' || c = '+' then cs else t
    | [] => t
  let neg := match t with
    | c :: _ => decide (c = '-')
    | [] => false
  match u with
  | [] => none
  | c :: cs =>
    if isDigitC c && intLitRest cs then
      let v : Int := Int.ofNat (digitsVal ((c :: cs).filter (fun x => x ≠ '_')))
      some (if neg then -v else v)
    else none

/-- The token pair a gro atom line contributes to the hash buffer:
`match.group(1)` and `match.group(2).replace(" ", "")` (ops.py line 99),
computed after `line.decode().strip()`.  `none` embeds the raised parse
exception. -/
def atomTokens (l : String) : Option (List Char × List Char) :=
  match groMatch (stripChars l.data) with
  | some p => some (p.1, p.2.filter (fun c => c ≠ ' '))
  | none => none

/-- The loop of `gro_hash` (ops.py lines 93-99): concatenates the token
pairs of the atom lines in file order; the first non-matching line raises. -/
def groBuf : List String → Except String String
  | [] => Except.ok ""
  | l :: ls =>
    match atomTokens l with
    | none => Except.error "parse"
    | some p =>
      match groBuf ls with
      | Except.error e => Except.error e
      | Except.ok b => Except.ok (String.mk (p.1 ++ p.2) ++ b)

/-- `gro_hash` up to the final `hashlib.md5(...)` call: the exact byte
string `name + buf.encode()` handed to the digest (ops.py lines 88-101).
The file is given as its list of lines without terminating newlines; the
title line keeps its newline in the hashed bytes because `readlines`
preserves it.  The unpacking `name, length, *lines, _` needs at least three
lines (else `ValueError`), `int(length)` must succeed, and the final line is
discarded. -/
def gro_hash_input (file : List String) : Except String String :=
  match file with
  | name :: countLine :: rest =>
    if rest.isEmpty then Except.error "unpack"
    else
      match parseInt countLine with
      | none => Except.error "int"
      | some _ =>
        match groBuf rest.dropLast with
        | Except.error e => Except.error e
        | Except.ok buf => Except.ok (name ++ "\n" ++ buf)
  | _ => Except.error "unpack"

/-- `gro_hash` itself: `hashlib.md5` is an external library collaborator,
embedded as an arbitrary deterministic digest function applied to the bytes
of `gro_hash_input`. -/
def gro_hash (digestFn : String → String) (file : List String) : Except String String :=
  (gro_hash_input file).map digestFn

/-! ### `get_energies` (src/folding/validators/reward.py)

`FoldingSynapse` responses carry a transport `dendrite.status_code`, the
responder identity `axon.hotkey` and an output bundle `md_output` (opaque
here).  The `Protein` class lives in `folding/validators/protein.py`, which
is not part of the sources; its four methods used by `get_energies` are
therefore modelled from the spec (section 4.4): per response, parsing the
output bundle, extracting the final potential energy and final RMSD from
the parsed data, and the fingerprint-based validity check.  Each may raise,
embedded as `Except`.  Since the protein state read by `get_energy` and
`get_rmsd` is the one set by `process_md_output` on the same response, the
methods are modelled as functions of the response being processed.
Energies are floats in Python; the numeric type is abstracted to `Int`,
which preserves the only numeric operation performed (comparison with the
zero sentinel). -/

/-- Transport result attached to a response. -/
structure Dendrite where
  status_code : Nat
deriving DecidableEq

/-- Responder identity attached to a response. -/
structure Axon where
  hotkey : String
deriving DecidableEq

/-- One worker response, as read by `get_energies`: the output bundle is
opaque (a tag), and transport data lives in `dendrite` / `axon`. -/
structure FoldingSynapse where
  md_output : Nat
  axon : Axon
  dendrite : Dendrite
deriving DecidableEq

/-- Modelled from the spec: the `Protein` methods used by `get_energies`
(`folding/validators/protein.py` is not among the sources).
`process_md_output` parses a response bundle (may raise, may return
`False`); `get_energy_final` / `get_rmsd_final` give the last recorded
potential-energy and RMSD samples of the trajectory parsed from that
response (`.iloc[-1]` may raise); `is_run_valid` runs the fingerprint-based
check and returns the validity flag with the checked energy. -/
structure ProteinModel where
  process_md_output : FoldingSynapse → Except String Bool
  get_energy_final : FoldingSynapse → Except String Int
  get_rmsd_final : FoldingSynapse → Except String Int
  is_run_valid : Int → FoldingSynapse → Except String (Bool × Int)

/-- The diagnostic arrays of the `event` dictionary built by `get_energies`
(reward.py lines 25-29). -/
structure RewardDiag where
  is_valid : List Bool
  checked_energy : List Int
  reported_energy : List Int
  rmsds : List Int
deriving DecidableEq

/-- The body of one iteration of the `get_energies` loop (reward.py lines
33-56), up to the array writes: `none` is a `continue` on a failed check,
`some (e, v, c, r, m)` carries the values written at index `i`
(`energies[i] = energy if is_valid else 0`, then the four event fields), and
`Except.error` is an exception reaching the surrounding handler. -/
def workerStep (p : ProteinModel) (resp : FoldingSynapse) :
    Except String (Option (Int × Bool × Int × Int × Int)) :=
  match p.process_md_output resp with
  | Except.error e => Except.error e
  | Except.ok ok =>
    if ok = false then Except.ok none
    else if resp.dendrite.status_code ≠ 200 then Except.ok none
    else
      match p.get_energy_final resp with
      | Except.error e => Except.error e
      | Except.ok energy =>
        match p.get_rmsd_final resp with
        | Except.error e => Except.error e
        | Except.ok rmsd =>
          if energy = 0 then Except.ok none
          else
            match p.is_run_valid energy resp with
            | Except.error e => Except.error e
            | Except.ok pair =>
              Except.ok (some ((if pair.1 then energy else 0), pair.1, pair.2, energy, rmsd))

/-- The `for i, (uid, resp) in enumerate(zip(uids, responses))` loop of
`get_energies`: a failed or raising iteration leaves the arrays untouched
(the exception is caught by the per-worker handler, reward.py lines 58-63),
a passing one overwrites position `i`. -/
def geLoop (p : ProteinModel) : List FoldingSynapse → Nat → List Int → RewardDiag →
    List Int × RewardDiag
  | [], _, energies, ev => (energies, ev)
  | resp :: rest, i, energies, ev =>
    match workerStep p resp with
    | Except.error _ => geLoop p rest (i + 1) energies ev
    | Except.ok none => geLoop p rest (i + 1) energies ev
    | Except.ok (some (e, v, c, r, m)) =>
      geLoop p rest (i + 1) (energies.set i e)
        ⟨ev.is_valid.set i v, ev.checked_energy.set i c,
         ev.reported_energy.set i r, ev.rmsds.set i m⟩

/-- `get_energies(protein, responses, uids)` (reward.py lines 16-65): the
energies vector and every event array are preallocated with one zero (or
`False`) entry per uid, and the loop runs over `zip(uids, responses)`, so
over the first `min(len(uids), len(responses))` responses. -/
def get_energies (p : ProteinModel) (responses : List FoldingSynapse) (uids : List Nat) :
    List Int × RewardDiag :=
  geLoop p (responses.take uids.length) 0 (List.replicate uids.length 0)
    ⟨List.replicate uids.length false, List.replicate uids.length 0,
     List.replicate uids.length 0, List.replicate uids.length 0⟩

/-- A worker that fails some check of the gate: its iteration does not reach
the array writes with a `True` validity flag (it raises, `continue`s early,
or `is_run_valid` returns `False`). -/
def workerFailed (p : ProteinModel) (resp : FoldingSynapse) : Bool :=
  match workerStep p resp with
  | Except.ok (some (_, true, _, _, _)) => false
  | _ => true

/-- Whether an iteration outcome reaches the array writes (as opposed to a
`continue` or a caught exception). -/
def stepWrites : Except String (Option (Int × Bool × Int × Int × Int)) → Bool
  | Except.ok (some _) => true
  | _ => false

/-! ### The `forward` loop (src/folding/validators/forward.py)

The round logic for one structure id: the configuration may pin the pdb id
and any hyperparameter; a random id is drawn when no id is pinned
(lines 107-112); then up to `TOTAL_COMBINATIONS` attempts each sample
hyperparameters, construct a `Protein` and call `protein.forward()` inside
`try/except/finally` (lines 115-171).  Wall-clock fields of the event are
not modelled.  The collaborators (`HyperParameters.sample_hyperparameters`,
the `Protein` constructor and `Protein.forward`) are external to the
sources, so one attempt is abstracted by where, if anywhere, it raises. -/

/-- One sampled hyperparameter combination (`sampled_combination`). -/
structure Hps where
  FF : String
  WATER : String
  BOX : String
  BOX_DISTANCE : String
deriving DecidableEq

/-- The fields of `self.config.protein` read by `forward`. -/
structure ProteinConfig where
  pdb_id : Option String
  ff : Option String
  water : Option String
  box : Option String
deriving DecidableEq

/-- The structure id chosen for the round (forward.py lines 108-112):
the pinned `config.protein.pdb_id` when present, otherwise the randomly
selected id. -/
def chosen_pdb_id (cfg : ProteinConfig) (selected : String) : String :=
  match cfg.pdb_id with
  | some p => p
  | none => selected

/-- The `pdb_id` argument actually passed to the `Protein` constructor
(forward.py line 126): it is `self.config.protein.pdb_id`, not the id
chosen for the round. -/
def protein_ctor_pdb_id (cfg : ProteinConfig) : Option String :=
  cfg.pdb_id

/-- The `hps` dictionary assigned after the `Protein` constructor succeeds
(forward.py lines 139-144): pinned configuration values override the
sampled ones, and `BOX_DISTANCE` is taken from the sample. -/
def mkHps (cfg : ProteinConfig) (sampled : Hps) : Hps :=
  ⟨cfg.ff.getD sampled.FF, cfg.water.getD sampled.WATER,
   cfg.box.getD sampled.BOX, sampled.BOX_DISTANCE⟩

/-- Behavior of one attempt of the `try` block, abstracting the external
collaborators by where the attempt raises: in
`hp_sampler.sample_hyperparameters()`, in the `Protein(...)` constructor
(both before the `hps = {...}` assignment of line 139), in
`protein.forward()` (after it), or nowhere. -/
inductive Step where
  | raisesAtSample : Step
  | raisesAtCtor (sampled : Hps) : Step
  | raisesAtForward (sampled : Hps) : Step
  | succeeds (sampled : Hps) : Step
deriving DecidableEq

/-- The diagnostic event of one attempt, restricted to its modelled fields
(`pdb_id`, the `hps` merged by `event.update(hps)`, and
`validator_search_status`). -/
structure FEvent where
  pdb_id : String
  hps : Hps
  validator_search_status : Bool
deriving DecidableEq

/-- Outcome of the attempt loop for one structure id.  `nameError`: the
`finally` block evaluated `event.update(hps)` with the local `hps` unbound
(line 158) and the `NameError` escaped `forward`, after having logged only
the listed events; `allFailed`: every combination failed, the failed events
were logged and the round is skipped without dispatch (lines 173-178);
`dispatched`: an attempt succeeded, the loop broke, and `run_step` is
awaited with the successful event pending (lines 180-194). -/
inductive RoundOutcome where
  | nameError (logged : List FEvent) : RoundOutcome
  | allFailed (logged : List FEvent) : RoundOutcome
  | dispatched (logged : List FEvent) (successEvent : FEvent) : RoundOutcome
deriving DecidableEq

/-- The `for iteration_num in range(...)` loop of `forward` (lines
115-171).  `hpsVar` is the current binding of the Python local `hps`, which
survives across iterations; `logged` accumulates the events passed to
`log_event`. -/
def forwardAttempts (cfg : ProteinConfig) (pdb : String) :
    List Step → Option Hps → List FEvent → RoundOutcome
  | [], _, logged => RoundOutcome.allFailed logged
  | step :: rest, hpsVar, logged =>
    let failed : Bool :=
      match step with
      | Step.succeeds _ => false
      | _ => true
    let hpsVar2 : Option Hps :=
      match step with
      | Step.raisesAtSample => hpsVar
      | Step.raisesAtCtor _ => hpsVar
      | Step.raisesAtForward s => some (mkHps cfg s)
      | Step.succeeds s => some (mkHps cfg s)
    match hpsVar2 with
    | none => RoundOutcome.nameError logged
    | some h =>
      let ev : FEvent := ⟨pdb, h, !failed⟩
      if failed then forwardAttempts cfg pdb rest (some h) (logged ++ [ev])
      else RoundOutcome.dispatched logged ev

/-- One round of `forward` for a chosen structure id: with zero
combinations the loop body never runs and line 174 reads the unbound
`event` (a `NameError`); otherwise the attempt loop runs with `hps`
initially unbound. -/
def forwardRound (cfg : ProteinConfig) (pdb : String) (steps : List Step) : RoundOutcome :=
  match steps with
  | [] => RoundOutcome.nameError []
  | _ => forwardAttempts cfg pdb steps none []

/-- Whether the round reaches the dispatch to workers (`run_step`). -/
def roundDispatches : RoundOutcome → Bool
  | RoundOutcome.dispatched _ _ => true
  | _ => false

/-! ### `run_cmd_commands` (src/folding/utils/ops.py lines 110-142) -/

/-- Result of `subprocess.run(cmd, check=True, ...)` for one command: the
elapsed time on success, or the captured stdout and return code of a
`CalledProcessError`. -/
inductive CmdOutcome where
  | ok (elapsed : Nat) : CmdOutcome
  | fail (stdout : String) (returncode : Int) : CmdOutcome
deriving DecidableEq

/-- The `errors` dictionary filled on failure (`breaking_command`,
`command_output`, `return_code`); `none` embeds the empty dictionary. -/
structure CmdErrors where
  breaking_command : String
  command_output : String
  return_code : Int
deriving DecidableEq

/-- Python dict insertion: overwrites in place if the key is present,
appends otherwise (insertion order preserved). -/
def dictInsert (d : List (String × Nat)) (k : String) (v : Nat) : List (String × Nat) :=
  if d.any (fun q => q.1 == k) then d.map (fun q => if q.1 == k then (k, v) else q)
  else d ++ [(k, v)]

/-- The loop of `run_cmd_commands`: each command is given with the outcome
of its `subprocess.run`; success records its timing, and the first failure
returns at once with the partial timings and the error record. -/
def runCmdLoop : List (String × CmdOutcome) → List (String × Nat) →
    List (String × Nat) × Option CmdErrors
  | [], timings => (timings, none)
  | (cmd, o) :: rest, timings =>
    match o with
    | CmdOutcome.ok t => runCmdLoop rest (dictInsert timings cmd t)
    | CmdOutcome.fail out rc => (timings, some ⟨cmd, out, rc⟩)

/-- `run_cmd_commands(commands)` with the per-command `subprocess` outcomes
supplied as data. -/
def run_cmd_commands (cmds : List (String × CmdOutcome)) :
    List (String × Nat) × Option CmdErrors :=
  runCmdLoop cmds []

/-- A command whose `subprocess.run` succeeds. -/
def isOkOutcome : CmdOutcome → Bool
  | CmdOutcome.ok _ => true
  | CmdOutcome.fail _ _ => false

/-- View of `Except` as a sum, used to decide equality of embedded results
on concrete inputs. -/
def exceptToSum {ε α : Type} : Except ε α → ε ⊕ α
  | Except.error e => Sum.inl e
  | Except.ok a => Sum.inr a

instance {ε α : Type} [DecidableEq ε] [DecidableEq α] : DecidableEq (Except ε α) :=
  fun a b =>
    decidable_of_iff (exceptToSum a = exceptToSum b)
      (by cases a <;> cases b <;> simp [exceptToSum])

/-! ### Concrete fixtures used by the witnesses -/

/-- A worker response that passes every check (status 200, parseable,
nonzero energy, valid fingerprint) under `pModel`. -/
def respA : FoldingSynapse := ⟨0, ⟨"hkA"⟩, ⟨200⟩⟩

/-- A worker response with a non-success transport status. -/
def respB : FoldingSynapse := ⟨1, ⟨"hkB"⟩, ⟨500⟩⟩

/-- A worker response whose final potential energy is the zero sentinel. -/
def respC : FoldingSynapse := ⟨2, ⟨"hkC"⟩, ⟨200⟩⟩

/-- A worker response whose output bundle fails to parse (raises). -/
def respD : FoldingSynapse := ⟨3, ⟨"hkD"⟩, ⟨200⟩⟩

/-- A concrete protein model for the witnesses: bundle 3 raises during
parsing, bundle 2 reports the zero-energy sentinel, bundle 0 passes the
fingerprint check, everything else fails it. -/
def pModel : ProteinModel :=
  ⟨fun resp => if resp.md_output = 3 then Except.error "bad" else Except.ok true,
   fun resp => if resp.md_output = 2 then Except.ok 0 else Except.ok (-542),
   fun _ => Except.ok 1,
   fun energy resp => Except.ok (decide (resp.md_output = 0), energy)⟩

/-- A concrete hyperparameter sample. -/
def hpsA : Hps := ⟨"amber03", "tip3p", "cubic", "1.0"⟩

/-- A second, distinct hyperparameter sample. -/
def hpsB : Hps := ⟨"charmm27", "tip3p", "dodecahedron", "1.2"⟩

/-- A configuration pinning nothing. -/
def cfgFree : ProteinConfig := ⟨none, none, none, none⟩

/-! ## Theorems -/

/-! ### Fingerprinting: claims C3, C4, C10 -/

/-- The hash buffer depends only on the token pair extracted from each atom
line: files whose lines extract to the same tokens produce the same
buffer. -/
theorem groBuf_congr : ∀ (m1 m2 : List String),
    m1.map atomTokens = m2.map atomTokens → groBuf m1 = groBuf m2
  | [], [], _ => rfl
  | [], _ :: _, h => by simp at h
  | _ :: _, [], h => by simp at h
  | a :: as, b :: bs, h => by
    simp only [List.map_cons, List.cons.injEq] at h
    simp only [groBuf, h.1, groBuf_congr as bs h.2]

/-- A list containing a non-matching line makes the buffer loop raise. -/
theorem groBuf_error_of_bad : ∀ (m : List String),
    (∃ l ∈ m, atomTokens l = none) → ∃ e, groBuf m = Except.error e
  | [], h => absurd h (by simp)
  | a :: as, h => by
    rcases h with ⟨l, hl, hnone⟩
    rcases List.mem_cons.mp hl with h1 | h2
    · subst h1
      exact ⟨"parse", by simp only [groBuf, hnone]⟩
    · rcases groBuf_error_of_bad as ⟨l, h2, hnone⟩ with ⟨e, he⟩
      cases hta : atomTokens a with
      | none => exact ⟨"parse", by simp only [groBuf, hta]⟩
      | some p => exact ⟨e, by simp only [groBuf, hta, he]⟩

/-- Every error the buffer loop produces carries the constant message, so
two buffers are distinct only when at least one side succeeds. -/
theorem groBuf_error_message : ∀ (m : List String) (e : String),
    groBuf m = Except.error e → e = "parse"
  | [], e, h => by simp [groBuf] at h
  | a :: as, e, h => by
    cases hta : atomTokens a with
    | none =>
      simp only [groBuf, hta, Except.error.injEq] at h
      exact h.symm
    | some p =>
      simp only [groBuf, hta] at h
      cases hb : groBuf as with
      | error e2 =>
        rw [hb] at h
        simp only [Except.error.injEq] at h
        rw [← h]
        exact groBuf_error_message as e2 hb
      | ok b => rw [hb] at h; simp at h

/-- Unfolding of `gro_hash_input` on a file presented as title, count line,
atom lines and final line. -/
theorem gro_hash_input_decomp (t c b : String) (m : List String) :
    gro_hash_input (t :: c :: (m ++ [b])) =
      match parseInt c with
      | none => Except.error "int"
      | some _ =>
        match groBuf m with
        | Except.error e => Except.error e
        | Except.ok buf => Except.ok (t ++ "\n" ++ buf) := by
  have hne : (m ++ [b]).isEmpty = false := by simp
  simp only [gro_hash_input, hne, Bool.false_eq_true, if_false, List.dropLast_concat]

/-- Claim C3 (amended): `gro_hash` is deterministic; two well-formed files
that differ only in coordinate values (same title line, same count line,
and atom lines extracting to the same residue/atom identity tokens) yield
the same digest for any digest function; and two files with the same title
and parseable count lines whose concatenated token buffers differ yield
different digest inputs, hence different md5 digests with overwhelming
probability.  (The original claim — that differing in any individual
residue or atom identity token forces a different digest — fails because
the tokens are concatenated without separators, so boundary shifts
collide; see the counterexample.) -/
theorem gro_hash_fingerprint_properties (d : String → String) (f : List String)
    (t c b b2 : String) (m1 m2 : List String) :
    gro_hash d f = gro_hash d f ∧
    (m1.map atomTokens = m2.map atomTokens → (∀ l ∈ m1, atomTokens l ≠ none) →
      (parseInt c).isSome = true →
      gro_hash d (t :: c :: (m1 ++ [b])) = gro_hash d (t :: c :: (m2 ++ [b]))) ∧
    (groBuf m1 ≠ groBuf m2 → (parseInt c).isSome = true →
      gro_hash_input (t :: c :: (m1 ++ [b])) ≠ gro_hash_input (t :: c :: (m2 ++ [b2]))) := by
  refine ⟨rfl, ?_, ?_⟩
  · intro hmap _ _
    unfold gro_hash
    rw [gro_hash_input_decomp, gro_hash_input_decomp, groBuf_congr m1 m2 hmap]
  · intro hbuf hc
    rcases Option.isSome_iff_exists.mp hc with ⟨k, hk⟩
    rw [gro_hash_input_decomp, gro_hash_input_decomp, hk]
    cases h1 : groBuf m1 with
    | error e1 =>
      cases h2 : groBuf m2 with
      | error e2 =>
        exact absurd (by rw [h1, h2, groBuf_error_message m1 e1 h1,
          groBuf_error_message m2 e2 h2]) hbuf
      | ok s2 => simp
    | ok s1 =>
      cases h2 : groBuf m2 with
      | error e2 => simp
      | ok s2 =>
        have hs : s1 ≠ s2 := by
          intro hss
          exact hbuf (by rw [h1, h2, hss])
        simp only [ne_eq, Except.ok.injEq]
        intro hcontr
        have := congrArg String.data hcontr
        rw [String.data_append, String.data_append] at this
        exact hs (String.ext (List.append_cancel_left this))

/-- Counterexample to claim C3 as stated: two well-formed files with the
same title whose atom lines carry different residue/atom identity tokens
(`("1A", "B11")` against `("1AB", "11")`) produce the same md5 input, hence
the same digest with certainty rather than a different digest with
overwhelming probability. -/
theorem gro_hash_token_sensitivity_fails :
    atomTokens " 1A  B11  1.0" ≠ atomTokens " 1AB  11  1.0" ∧
    gro_hash_input ["TITLE", "1", " 1A  B11  1.0", "box"] =
      gro_hash_input ["TITLE", "1", " 1AB  11  1.0", "box"] ∧
    (gro_hash_input ["TITLE", "1", " 1A  B11  1.0", "box"]).isOk = true ∧
    gro_hash id ["TITLE", "1", " 1A  B11  1.0", "box"] =
      gro_hash id ["TITLE", "1", " 1AB  11  1.0", "box"] := by
  refine ⟨by decide, by decide, by decide, ?_⟩
  show (gro_hash_input _).map id = (gro_hash_input _).map id
  rw [show gro_hash_input ["TITLE", "1", " 1A  B11  1.0", "box"] =
    gro_hash_input ["TITLE", "1", " 1AB  11  1.0", "box"] from by decide]

/-- Witness for the amended claim C3 at concrete files. -/
theorem gro_hash_fingerprint_properties_witness :
    gro_hash id ("T" :: "1" :: ([" 1LYS  N  1  9.9  9.9  9.9"] ++ ["box"])) =
      gro_hash id ("T" :: "1" :: ([" 1LYS  N  1  1.234  2.0  3.0"] ++ ["box"])) ∧
    gro_hash_input ("T" :: "1" :: ([" 1LYS  N  1  1.0"] ++ ["box"])) ≠
      gro_hash_input ("T" :: "1" :: ([" 2GLY  CA  2  1.0"] ++ ["boxB"])) := by
  constructor
  · exact (gro_hash_fingerprint_properties id [] "T" "1" "box" "box"
      [" 1LYS  N  1  9.9  9.9  9.9"] [" 1LYS  N  1  1.234  2.0  3.0"]).2.1
      (by decide) (by decide) (by decide)
  · exact (gro_hash_fingerprint_properties id [] "T" "1" "box" "boxB"
      [" 1LYS  N  1  1.0"] [" 2GLY  CA  2  1.0"]).2.2 (by decide) (by decide)

/-- Claim C4: if any atom line (a line between the two header lines and the
final line) does not match the token pattern, `gro_hash` raises instead of
skipping the line; no atom line is silently omitted. -/
theorem gro_hash_rejects_malformed (t c b : String) (m : List String)
    (hbad : ∃ l ∈ m, atomTokens l = none) :
    ∃ e, gro_hash_input (t :: c :: (m ++ [b])) = Except.error e := by
  rw [gro_hash_input_decomp]
  cases hpc : parseInt c with
  | none => exact ⟨"int", rfl⟩
  | some k =>
    rcases groBuf_error_of_bad m hbad with ⟨e, he⟩
    exact ⟨e, by rw [he]⟩

/-- Witness for claim C4: a malformed middle line makes the hash fail. -/
theorem gro_hash_rejects_malformed_witness :
    (gro_hash_input ("TITLE" :: "1" :: (["bad line"] ++ ["box"]))).isOk = false := by
  obtain ⟨e, he⟩ := gro_hash_rejects_malformed "TITLE" "1" "box" ["bad line"]
    ⟨"bad line", by decide, by decide⟩
  rw [he]
  rfl

/-- Claim C10: the digest never depends on the value of the atom-count line
nor on the content of the final line: same title and same atom lines give
the same md5 input whenever both count lines parse as integers, whatever
their values and whatever the final lines hold. -/
theorem gro_hash_ignores_count_and_final (t c1 c2 b1 b2 : String) (m : List String)
    (h1 : (parseInt c1).isSome = true) (h2 : (parseInt c2).isSome = true) :
    gro_hash_input (t :: c1 :: (m ++ [b1])) = gro_hash_input (t :: c2 :: (m ++ [b2])) := by
  rcases Option.isSome_iff_exists.mp h1 with ⟨k1, hk1⟩
  rcases Option.isSome_iff_exists.mp h2 with ⟨k2, hk2⟩
  rw [gro_hash_input_decomp, gro_hash_input_decomp, hk1, hk2]

/-- Witness for claim C10 at concrete files with different count and box
lines. -/
theorem gro_hash_ignores_count_and_final_witness :
    gro_hash_input ("T" :: "1" :: ([" 1LYS  N  1  1.0"] ++ ["boxA"])) =
      gro_hash_input ("T" :: "999" :: ([" 1LYS  N  1  1.0"] ++ ["boxB"])) :=
  gro_hash_ignores_count_and_final "T" "1" "999" "boxA" "boxB" [" 1LYS  N  1  1.0"]
    (by decide) (by decide)

/-! ### The validity gate: claims C1, C5, C6 -/

/-- The gate loop never changes the lengths of the energies vector or of
the diagnostic arrays. -/
theorem geLoop_lengths (p : ProteinModel) (resps : List FoldingSynapse) :
    ∀ (i : Nat) (E : List Int) (ev : RewardDiag),
    (geLoop p resps i E ev).1.length = E.length ∧
    (geLoop p resps i E ev).2.is_valid.length = ev.is_valid.length ∧
    (geLoop p resps i E ev).2.checked_energy.length = ev.checked_energy.length ∧
    (geLoop p resps i E ev).2.reported_energy.length = ev.reported_energy.length ∧
    (geLoop p resps i E ev).2.rmsds.length = ev.rmsds.length := by
  induction resps with
  | nil => intro i E ev; exact ⟨rfl, rfl, rfl, rfl, rfl⟩
  | cons resp rest ih =>
    intro i E ev
    simp only [geLoop]
    cases hws : workerStep p resp with
    | error e => exact ih (i + 1) E ev
    | ok o =>
      cases o with
      | none => exact ih (i + 1) E ev
      | some t =>
        obtain ⟨e, v, c, r, m⟩ := t
        have h := ih (i + 1) (E.set i e)
          ⟨ev.is_valid.set i v, ev.checked_energy.set i c,
           ev.reported_energy.set i r, ev.rmsds.set i m⟩
        simpa [List.length_set] using h

/-- Positions below the running index are never written by the gate loop. -/
theorem geLoop_untouched (p : ProteinModel) (resps : List FoldingSynapse) :
    ∀ (i : Nat) (E : List Int) (ev : RewardDiag) (j : Nat), j < i →
    (geLoop p resps i E ev).1[j]? = E[j]? ∧
    (geLoop p resps i E ev).2.is_valid[j]? = ev.is_valid[j]? ∧
    (geLoop p resps i E ev).2.checked_energy[j]? = ev.checked_energy[j]? ∧
    (geLoop p resps i E ev).2.reported_energy[j]? = ev.reported_energy[j]? ∧
    (geLoop p resps i E ev).2.rmsds[j]? = ev.rmsds[j]? := by
  induction resps with
  | nil => intro i E ev j hj; exact ⟨rfl, rfl, rfl, rfl, rfl⟩
  | cons resp rest ih =>
    intro i E ev j hj
    have hj1 : j < i + 1 := Nat.lt_succ_of_lt hj
    have hne : i ≠ j := Nat.ne_of_gt hj
    simp only [geLoop]
    cases hws : workerStep p resp with
    | error e => exact ih (i + 1) E ev j hj1
    | ok o =>
      cases o with
      | none => exact ih (i + 1) E ev j hj1
      | some t =>
        obtain ⟨e, v, c, r, m⟩ := t
        have h := ih (i + 1) (E.set i e)
          ⟨ev.is_valid.set i v, ev.checked_energy.set i c,
           ev.reported_energy.set i r, ev.rmsds.set i m⟩ j hj1
        exact ⟨h.1.trans (List.getElem?_set_ne hne),
               h.2.1.trans (List.getElem?_set_ne hne),
               h.2.2.1.trans (List.getElem?_set_ne hne),
               h.2.2.2.1.trans (List.getElem?_set_ne hne),
               h.2.2.2.2.trans (List.getElem?_set_ne hne)⟩

/-- Entry `i + k` of the gate loop output is determined by the `k`-th
response alone: unchanged when that iteration is skipped or raises, and
overwritten with that iteration's values when it reaches the writes. -/
theorem geLoop_entry (p : ProteinModel) (resps : List FoldingSynapse) :
    ∀ (k : Nat) (resp : FoldingSynapse) (i : Nat) (E : List Int) (ev : RewardDiag),
    resps[k]? = some resp →
    i + resps.length ≤ E.length →
    ev.is_valid.length = E.length →
    ev.checked_energy.length = E.length →
    ev.reported_energy.length = E.length →
    ev.rmsds.length = E.length →
    ((stepWrites (workerStep p resp) = false →
       (geLoop p resps i E ev).1[i + k]? = E[i + k]? ∧
       (geLoop p resps i E ev).2.is_valid[i + k]? = ev.is_valid[i + k]? ∧
       (geLoop p resps i E ev).2.checked_energy[i + k]? = ev.checked_energy[i + k]? ∧
       (geLoop p resps i E ev).2.reported_energy[i + k]? = ev.reported_energy[i + k]? ∧
       (geLoop p resps i E ev).2.rmsds[i + k]? = ev.rmsds[i + k]?) ∧
     (∀ e v c r m, workerStep p resp = Except.ok (some (e, v, c, r, m)) →
       (geLoop p resps i E ev).1[i + k]? = some e ∧
       (geLoop p resps i E ev).2.is_valid[i + k]? = some v ∧
       (geLoop p resps i E ev).2.checked_energy[i + k]? = some c ∧
       (geLoop p resps i E ev).2.reported_energy[i + k]? = some r ∧
       (geLoop p resps i E ev).2.rmsds[i + k]? = some m)) := by
  induction resps with
  | nil => intro k resp i E ev hk; simp at hk
  | cons resp0 rest ih =>
    intro k resp i E ev hk hE h1 h2 h3 h4
    cases k with
    | zero =>
      have hr : resp0 = resp := by simpa using hk
      subst hr
      have hiE : i < E.length := by
        simp only [List.length_cons] at hE
        omega
      simp only [Nat.add_zero, geLoop]
      cases hws : workerStep p resp0 with
      | error e =>
        refine ⟨fun _ => geLoop_untouched p rest (i + 1) E ev i (Nat.lt_succ_self i), ?_⟩
        intro e' v' c' r' m' habs
        exact absurd habs (by simp)
      | ok o =>
        cases o with
        | none =>
          refine ⟨fun _ => geLoop_untouched p rest (i + 1) E ev i (Nat.lt_succ_self i), ?_⟩
          intro e' v' c' r' m' habs
          exact absurd habs (by simp)
        | some t =>
          obtain ⟨e, v, c, r, m⟩ := t
          constructor
          · intro habs
            exact absurd habs (by simp [stepWrites])
          · intro e' v' c' r' m' heq
            simp only [Except.ok.injEq, Option.some.injEq, Prod.mk.injEq] at heq
            obtain ⟨he, hv, hc, hr2, hm⟩ := heq
            subst he; subst hv; subst hc; subst hr2; subst hm
            have h := geLoop_untouched p rest (i + 1) (E.set i e)
              ⟨ev.is_valid.set i v, ev.checked_energy.set i c,
               ev.reported_energy.set i r, ev.rmsds.set i m⟩ i (Nat.lt_succ_self i)
            refine ⟨h.1.trans (List.getElem?_set_self hiE),
                    h.2.1.trans (List.getElem?_set_self (by rw [h1]; exact hiE)),
                    h.2.2.1.trans (List.getElem?_set_self (by rw [h2]; exact hiE)),
                    h.2.2.2.1.trans (List.getElem?_set_self (by rw [h3]; exact hiE)),
                    h.2.2.2.2.trans (List.getElem?_set_self (by rw [h4]; exact hiE))⟩
    | succ k2 =>
      have hk2 : rest[k2]? = some resp := by simpa using hk
      have hidx : i + (k2 + 1) = (i + 1) + k2 := by omega
      have hE2 : (i + 1) + rest.length ≤ E.length := by
        simp only [List.length_cons] at hE
        omega
      rw [hidx]
      simp only [geLoop]
      cases hws : workerStep p resp0 with
      | error e => exact ih k2 resp (i + 1) E ev hk2 hE2 h1 h2 h3 h4
      | ok o =>
        cases o with
        | none => exact ih k2 resp (i + 1) E ev hk2 hE2 h1 h2 h3 h4
        | some t =>
          obtain ⟨e, v, c, r, m⟩ := t
          have hne : i ≠ (i + 1) + k2 := by omega
          have h := ih k2 resp (i + 1) (E.set i e)
            ⟨ev.is_valid.set i v, ev.checked_energy.set i c,
             ev.reported_energy.set i r, ev.rmsds.set i m⟩ hk2
            (by rw [List.length_set]; exact hE2)
            (by simp [List.length_set, h1])
            (by simp [List.length_set, h2])
            (by simp [List.length_set, h3])
            (by simp [List.length_set, h4])
          constructor
          · intro hsk
            have hu := h.1 hsk
            exact ⟨hu.1.trans (List.getElem?_set_ne hne),
                   hu.2.1.trans (List.getElem?_set_ne hne),
                   hu.2.2.1.trans (List.getElem?_set_ne hne),
                   hu.2.2.2.1.trans (List.getElem?_set_ne hne),
                   hu.2.2.2.2.trans (List.getElem?_set_ne hne)⟩
          · exact h.2

/-- Entry facts transported to `get_energies` itself: with one response per
uid, position `i` of every output array is governed by response `i`. -/
theorem get_energies_entry (p : ProteinModel) (responses : List FoldingSynapse)
    (uids : List Nat) (h : uids.length = responses.length)
    (i : Nat) (resp : FoldingSynapse) (hresp : responses[i]? = some resp) :
    ((stepWrites (workerStep p resp) = false →
       (get_energies p responses uids).1[i]? = some 0 ∧
       (get_energies p responses uids).2.is_valid[i]? = some false ∧
       (get_energies p responses uids).2.checked_energy[i]? = some 0 ∧
       (get_energies p responses uids).2.reported_energy[i]? = some 0 ∧
       (get_energies p responses uids).2.rmsds[i]? = some 0) ∧
     (∀ e v c r m, workerStep p resp = Except.ok (some (e, v, c, r, m)) →
       (get_energies p responses uids).1[i]? = some e ∧
       (get_energies p responses uids).2.is_valid[i]? = some v ∧
       (get_energies p responses uids).2.checked_energy[i]? = some c ∧
       (get_energies p responses uids).2.reported_energy[i]? = some r ∧
       (get_energies p responses uids).2.rmsds[i]? = some m)) := by
  have hi : i < responses.length := by
    rcases List.getElem?_eq_some.mp hresp with ⟨hlt, _⟩
    exact hlt
  have hiu : i < uids.length := by rw [h]; exact hi
  have htake : responses.take uids.length = responses := by
    rw [h]; exact List.take_length responses
  have hk : (responses.take uids.length)[i]? = some resp := by rw [htake]; exact hresp
  have hrepl : ∀ (j : Nat), j < uids.length →
      (List.replicate uids.length (0 : Int))[j]? = some 0 := by
    intro j hj
    rw [List.getElem?_replicate, if_pos hj]
  have hreplb : (List.replicate uids.length false)[i]? = some false := by
    rw [List.getElem?_replicate, if_pos hiu]
  have hmain := geLoop_entry p (responses.take uids.length) i resp 0
    (List.replicate uids.length 0)
    ⟨List.replicate uids.length false, List.replicate uids.length 0,
     List.replicate uids.length 0, List.replicate uids.length 0⟩
    hk
    (by simp [htake, h])
    (by simp) (by simp) (by simp) (by simp)
  simp only [Nat.zero_add] at hmain
  unfold get_energies
  constructor
  · intro hsk
    have hu := hmain.1 hsk
    exact ⟨hu.1.trans (hrepl i hiu), hu.2.1.trans hreplb,
           hu.2.2.1.trans (hrepl i hiu), hu.2.2.2.1.trans (hrepl i hiu),
           hu.2.2.2.2.trans (hrepl i hiu)⟩
  · exact hmain.2

/-- An iteration that reaches the writes with a `False` validity flag wrote
`energies[i] = 0`, because the loop stores `energy if is_valid else 0`. -/
theorem workerStep_invalid_energy (p : ProteinModel) (resp : FoldingSynapse)
    (e : Int) (c r m : Int)
    (h : workerStep p resp = Except.ok (some (e, false, c, r, m))) : e = 0 := by
  unfold workerStep at h
  repeat' split at h
  all_goals simp_all

/-- An outcome that reaches the writes is an `ok some`. -/
theorem stepWrites_eq_true (o : Except String (Option (Int × Bool × Int × Int × Int)))
    (h : stepWrites o = true) :
    ∃ e v c r m, o = Except.ok (some (e, v, c, r, m)) := by
  cases o with
  | error e => simp [stepWrites] at h
  | ok oo =>
    cases oo with
    | none => simp [stepWrites] at h
    | some t => exact ⟨t.1, t.2.1, t.2.2.1, t.2.2.2.1, t.2.2.2.2, rfl⟩

/-- Claim C1: for every task and every list of N queried workers with their
N responses, `get_energies` returns an energies vector and diagnostic
arrays (`is_valid`, `checked_energy`, `reported_energy`, `rmsds`) each of
length exactly N, indexed in worker order, with a 0 energy entry and a
`False` validity flag at every position whose worker failed any check; each
position is governed by its own response alone (an exception while
processing one worker is caught and leaves only that worker's entry
invalid, and every other worker's entries are still computed from its own
response), so no single response aborts scoring of the batch. -/
theorem get_energies_validity_gate (p : ProteinModel) (responses : List FoldingSynapse)
    (uids : List Nat) (h : uids.length = responses.length) :
    ((get_energies p responses uids).1.length = uids.length ∧
     (get_energies p responses uids).2.is_valid.length = uids.length ∧
     (get_energies p responses uids).2.checked_energy.length = uids.length ∧
     (get_energies p responses uids).2.reported_energy.length = uids.length ∧
     (get_energies p responses uids).2.rmsds.length = uids.length) ∧
    ∀ (i : Nat) (resp : FoldingSynapse), responses[i]? = some resp →
      (workerFailed p resp = true →
        (get_energies p responses uids).1[i]? = some 0 ∧
        (get_energies p responses uids).2.is_valid[i]? = some false) ∧
      (∀ e c r m, workerStep p resp = Except.ok (some (e, true, c, r, m)) →
        (get_energies p responses uids).1[i]? = some e ∧
        (get_energies p responses uids).2.is_valid[i]? = some true ∧
        (get_energies p responses uids).2.checked_energy[i]? = some c ∧
        (get_energies p responses uids).2.reported_energy[i]? = some r ∧
        (get_energies p responses uids).2.rmsds[i]? = some m) := by
  constructor
  · have hl := geLoop_lengths p (responses.take uids.length) 0
      (List.replicate uids.length 0)
      ⟨List.replicate uids.length false, List.replicate uids.length 0,
       List.replicate uids.length 0, List.replicate uids.length 0⟩
    unfold get_energies
    simpa [List.length_replicate] using hl
  · intro i resp hresp
    have hent := get_energies_entry p responses uids h i resp hresp
    constructor
    · intro hfail
      cases hsw : stepWrites (workerStep p resp) with
      | false =>
        have hu := hent.1 hsw
        exact ⟨hu.1, hu.2.1⟩
      | true =>
        obtain ⟨e, v, c, r, m, heq⟩ := stepWrites_eq_true _ hsw
        have hv : v = false := by
          cases v with
          | true =>
            unfold workerFailed at hfail
            rw [heq] at hfail
            simp at hfail
          | false => rfl
        subst hv
        have he : e = 0 := workerStep_invalid_energy p resp e c r m heq
        subst he
        have hw := hent.2 0 false c r m heq
        exact ⟨hw.1, hw.2.1⟩
    · intro e c r m heq
      exact hent.2 e true c r m heq

/-- Witness for claim C1: three workers, of which the second raises during
parsing and the third reports the zero sentinel; all arrays have length 3,
the passing worker keeps its energy, the failing workers get 0/invalid. -/
theorem get_energies_validity_gate_witness :
    (get_energies pModel [respA, respD, respC] [9, 10, 11]).1.length = 3 ∧
    (get_energies pModel [respA, respD, respC] [9, 10, 11]).1[0]? = some (-542) ∧
    (get_energies pModel [respA, respD, respC] [9, 10, 11]).2.is_valid[0]? = some true ∧
    (get_energies pModel [respA, respD, respC] [9, 10, 11]).1[1]? = some 0 ∧
    (get_energies pModel [respA, respD, respC] [9, 10, 11]).2.is_valid[1]? = some false ∧
    (get_energies pModel [respA, respD, respC] [9, 10, 11]).1[2]? = some 0 := by
  have h := get_energies_validity_gate pModel [respA, respD, respC] [9, 10, 11] rfl
  exact ⟨h.1.1,
    ((h.2 0 respA rfl).2 (-542) (-542) (-542) 1 (by decide)).1,
    ((h.2 0 respA rfl).2 (-542) (-542) (-542) 1 (by decide)).2.1,
    ((h.2 1 respD rfl).1 (by decide)).1,
    ((h.2 1 respD rfl).1 (by decide)).2,
    ((h.2 2 respC rfl).1 (by decide)).1⟩

/-- Claim C5: a worker whose response parses and whose final recorded
potential energy is exactly zero is marked invalid and contributes 0 to the
energies vector, regardless of the rest of its payload. -/
theorem get_energies_zero_sentinel (p : ProteinModel) (responses : List FoldingSynapse)
    (uids : List Nat) (h : uids.length = responses.length)
    (i : Nat) (resp : FoldingSynapse) (hresp : responses[i]? = some resp)
    (hzero : p.get_energy_final resp = Except.ok 0) :
    (get_energies p responses uids).1[i]? = some 0 ∧
    (get_energies p responses uids).2.is_valid[i]? = some false := by
  have hsw : stepWrites (workerStep p resp) = false := by
    cases hpo : p.process_md_output resp with
    | error e => simp [workerStep, hpo, stepWrites]
    | ok ok =>
      cases ok with
      | false => simp [workerStep, hpo, stepWrites]
      | true =>
        by_cases hsc : resp.dendrite.status_code = 200
        · cases hrm : p.get_rmsd_final resp with
          | error e => simp [workerStep, hpo, hsc, hzero, hrm, stepWrites]
          | ok rmsd => simp [workerStep, hpo, hsc, hzero, hrm, stepWrites]
        · simp [workerStep, hpo, hsc, stepWrites]
  have hent := get_energies_entry p responses uids h i resp hresp
  have hu := hent.1 hsw
  exact ⟨hu.1, hu.2.1⟩

/-- Witness for claim C5: the third worker reports energy exactly 0 with a
200 status and a parseable payload, and ends invalid with energy 0. -/
theorem get_energies_zero_sentinel_witness :
    (get_energies pModel [respA, respB, respC] [9, 10, 11]).1[2]? = some 0 ∧
    (get_energies pModel [respA, respB, respC] [9, 10, 11]).2.is_valid[2]? = some false :=
  get_energies_zero_sentinel pModel [respA, respB, respC] [9, 10, 11] rfl 2 respC rfl
    (by decide)

/-- Claim C6: a worker whose response carries a non-success transport
status code is marked invalid and its energy entry stays 0, regardless of
its payload contents. -/
theorem get_energies_non200_invalid (p : ProteinModel) (responses : List FoldingSynapse)
    (uids : List Nat) (h : uids.length = responses.length)
    (i : Nat) (resp : FoldingSynapse) (hresp : responses[i]? = some resp)
    (hstatus : resp.dendrite.status_code ≠ 200) :
    (get_energies p responses uids).1[i]? = some 0 ∧
    (get_energies p responses uids).2.is_valid[i]? = some false := by
  have hsw : stepWrites (workerStep p resp) = false := by
    cases hpo : p.process_md_output resp with
    | error e => simp [workerStep, hpo, stepWrites]
    | ok ok =>
      cases ok with
      | false => simp [workerStep, hpo, stepWrites]
      | true => simp [workerStep, hpo, hstatus, stepWrites]
  have hent := get_energies_entry p responses uids h i resp hresp
  have hu := hent.1 hsw
  exact ⟨hu.1, hu.2.1⟩

/-- Witness for claim C6: the second worker answers with status 500 and
ends invalid with energy 0. -/
theorem get_energies_non200_invalid_witness :
    (get_energies pModel [respA, respB, respC] [9, 10, 11]).1[1]? = some 0 ∧
    (get_energies pModel [respA, respB, respC] [9, 10, 11]).2.is_valid[1]? = some false :=
  get_energies_non200_invalid pModel [respA, respB, respC] [9, 10, 11] rfl 1 respB rfl
    (by decide)

/-! ### The forward loop: claims C2, C7, C8 -/

/-- Claim C2 evaluated at the failing input: when the configuration pins no
pdb id, the id chosen for the round is the randomly selected one, but the
`Protein` entity is constructed with `config.protein.pdb_id`, that is with
no structure id at all — it is not the chosen id; when an id is pinned the
two agree. -/
theorem forward_protein_pdb_id_mismatch :
    chosen_pdb_id ⟨none, none, none, none⟩ "1ABC" = "1ABC" ∧
    protein_ctor_pdb_id ⟨none, none, none, none⟩ = none ∧
    protein_ctor_pdb_id ⟨none, none, none, none⟩ ≠
      some (chosen_pdb_id ⟨none, none, none, none⟩ "1ABC") ∧
    protein_ctor_pdb_id ⟨some "9XYZ", none, none, none⟩ =
      some (chosen_pdb_id ⟨some "9XYZ", none, none, none⟩ "1ABC") := by
  decide

/-- Claim C7 evaluated at the failing inputs: an attempt that raises before
the `hps` assignment (in `sample_hyperparameters` or in the `Protein`
constructor) on the first iteration makes the `finally` block itself raise
`NameError` — no diagnostic event is emitted for that attempt and the
exception escapes the loop; on a later iteration the emitted event carries
the previous attempt's hyperparameters instead of the current sample. -/
theorem forward_attempt_event_loss :
    forwardRound cfgFree "1ABC" [Step.raisesAtCtor hpsA] = RoundOutcome.nameError [] ∧
    forwardRound cfgFree "1ABC" [Step.raisesAtForward hpsA, Step.raisesAtCtor hpsB] =
      RoundOutcome.allFailed
        [⟨"1ABC", mkHps cfgFree hpsA, false⟩, ⟨"1ABC", mkHps cfgFree hpsA, false⟩] ∧
    mkHps cfgFree hpsA ≠ mkHps cfgFree hpsB := by
  decide

/-- When every remaining combination fails in preparation
(`protein.forward()` raises, after `hps` was assigned), every attempt logs
exactly one failed event and the loop ends in `allFailed`. -/
theorem forwardAttempts_all_prep_failures (cfg : ProteinConfig) (pdb : String) :
    ∀ (steps : List Step) (hpsVar : Option Hps) (logged : List FEvent),
    (∀ s ∈ steps, ∃ hp, s = Step.raisesAtForward hp) →
    ∃ evs, forwardAttempts cfg pdb steps hpsVar logged =
        RoundOutcome.allFailed (logged ++ evs) ∧
      evs.length = steps.length ∧
      ∀ e ∈ evs, e.validator_search_status = false := by
  intro steps
  induction steps with
  | nil =>
    intro hpsVar logged _
    exact ⟨[], by simp [forwardAttempts], rfl, by simp⟩
  | cons s rest ih =>
    intro hpsVar logged hall
    obtain ⟨hp, hs⟩ := hall s (List.mem_cons_self s rest)
    subst hs
    obtain ⟨evs2, heq, hlen, hfalse⟩ := ih (some (mkHps cfg hp))
      (logged ++ [⟨pdb, mkHps cfg hp, false⟩])
      (fun x hx => hall x (List.mem_cons_of_mem _ hx))
    refine ⟨⟨pdb, mkHps cfg hp, false⟩ :: evs2, ?_, by simp [hlen], ?_⟩
    · simp only [forwardAttempts, Bool.not_true, if_true]
      rw [heq]
      simp
    · intro e he
      rcases List.mem_cons.mp he with h1 | h2
      · rw [h1]
      · exact hfalse e h2

/-- Claim C8: if every hyperparameter combination for a structure id fails
preparation, the round logs one event per attempt, all with
`validator_search_status = False`, ends in the all-failed state that makes
the loop advance to a new structure id, and never dispatches to any worker
(`run_step` is not reached). -/
theorem forward_all_failed_skips_dispatch (cfg : ProteinConfig) (pdb : String)
    (steps : List Step) (hne : steps ≠ [])
    (hall : ∀ s ∈ steps, ∃ hp, s = Step.raisesAtForward hp) :
    ∃ evs, forwardRound cfg pdb steps = RoundOutcome.allFailed evs ∧
      evs.length = steps.length ∧
      (∀ e ∈ evs, e.validator_search_status = false) ∧
      roundDispatches (forwardRound cfg pdb steps) = false := by
  obtain ⟨evs, heq, hlen, hfalse⟩ :=
    forwardAttempts_all_prep_failures cfg pdb steps none [] hall
  have hr : forwardRound cfg pdb steps = forwardAttempts cfg pdb steps none [] := by
    cases steps with
    | nil => exact absurd rfl hne
    | cons a as => rfl
  rw [hr, heq]
  exact ⟨evs, by simp, hlen, hfalse, rfl⟩

/-- Witness for claim C8: one combination, whose preparation fails; the
round ends all-failed and does not dispatch. -/
theorem forward_all_failed_skips_dispatch_witness :
    roundDispatches (forwardRound cfgFree "1ABC" [Step.raisesAtForward hpsA]) = false := by
  obtain ⟨evs, heq, hlen, hfalse, hdisp⟩ :=
    forward_all_failed_skips_dispatch cfgFree "1ABC" [Step.raisesAtForward hpsA]
      (by simp) (by intro s hs; rw [List.mem_singleton] at hs; exact ⟨hpsA, hs⟩)
  exact hdisp

/-! ### `run_cmd_commands`: claim C9 -/

/-- A prefix of commands whose subprocess runs all succeed: the loop
records their timings, reports no error on them, and continues past
them. -/
theorem runCmdLoop_ok_front :
    ∀ (pre L : List (String × CmdOutcome)) (timings : List (String × Nat)),
    (∀ x ∈ pre, isOkOutcome x.2 = true) →
    runCmdLoop (pre ++ L) timings = runCmdLoop L (runCmdLoop pre timings).1 ∧
    (runCmdLoop pre timings).2 = none := by
  intro pre
  induction pre with
  | nil => intro L timings _; exact ⟨rfl, rfl⟩
  | cons x rest ih =>
    intro L timings hok
    obtain ⟨cmd, o⟩ := x
    cases o with
    | ok t =>
      have h2 := ih L (dictInsert timings cmd t)
        (fun y hy => hok y (List.mem_cons_of_mem _ hy))
      simpa [runCmdLoop] using h2
    | fail out rc =>
      have hx := hok (cmd, CmdOutcome.fail out rc) (List.mem_cons_self _ _)
      simp [isOkOutcome] at hx

/-- Claim C9: commands execute in order; at the first failing command the
function returns immediately without raising — the timings are exactly
those of the commands completed before the failure, the error record holds
the failing command, its captured output and its return code, and the
result is the same whatever commands follow the failing one (they are never
executed); when every command succeeds the error record is empty. -/
theorem run_cmd_commands_first_failure (pre post cmds : List (String × CmdOutcome))
    (c out : String) (rc : Int) :
    ((∀ x ∈ pre, isOkOutcome x.2 = true) →
      (run_cmd_commands (pre ++ (c, CmdOutcome.fail out rc) :: post)).2 =
        some ⟨c, out, rc⟩ ∧
      (run_cmd_commands (pre ++ (c, CmdOutcome.fail out rc) :: post)).1 =
        (run_cmd_commands pre).1 ∧
      run_cmd_commands (pre ++ (c, CmdOutcome.fail out rc) :: post) =
        run_cmd_commands (pre ++ [(c, CmdOutcome.fail out rc)])) ∧
    ((∀ x ∈ cmds, isOkOutcome x.2 = true) → (run_cmd_commands cmds).2 = none) := by
  constructor
  · intro hok
    have h1 := runCmdLoop_ok_front pre ((c, CmdOutcome.fail out rc) :: post) [] hok
    have h2 := runCmdLoop_ok_front pre [(c, CmdOutcome.fail out rc)] [] hok
    unfold run_cmd_commands
    rw [h1.1, h2.1]
    exact ⟨rfl, rfl, rfl⟩
  · intro hok
    exact (runCmdLoop_ok_front cmds [] [] hok).2

/-- Witness for claim C9: one succeeding command, one failing command, one
command after the failure: the timings hold only the first command, the
error record names the second, and the third is never consulted. -/
theorem run_cmd_commands_first_failure_witness :
    (run_cmd_commands [("a", CmdOutcome.ok 1), ("b", CmdOutcome.fail "boom" (-1)),
        ("never", CmdOutcome.ok 5)]).2 = some ⟨"b", "boom", -1⟩ ∧
    (run_cmd_commands [("a", CmdOutcome.ok 1), ("b", CmdOutcome.fail "boom" (-1)),
        ("never", CmdOutcome.ok 5)]).1 = [("a", 1)] := by
  have h := (run_cmd_commands_first_failure [("a", CmdOutcome.ok 1)]
    [("never", CmdOutcome.ok 5)] [] "b" "boom" (-1)).1 (by decide)
  exact ⟨h.1, h.2.1.trans (by decide)⟩

end Folding
